import Mathlib

/-!
Shallow embedding of the OAuth 2.1 authorization proxy / token broker of the
gtm-mcp-server repository (Go), covering:

* `isValidRedirectURI` (oauth server file, redirect-URI allow-list check),
* `MemoryTokenStore` (token/state/client store with refresh-token secondary
  index and background cleanup sweep),
* the `/token` handlers (`handleAuthorizationCodeGrant`,
  `handleRefreshTokenGrant`), the `/authorize` handler and the
  `/register` handler (`RegistrationHandler` with `isValidDCRRedirectURI`),
* the per-IP rate limiter (`middleware/ratelimit.go`).

Conventions of the embedding:

* Go `time.Time` instants are `Nat` (seconds); the zero `time.Time` is `0`
  and `t.IsZero()` is `t = 0`; `a.After(b)` is `b < a`; durations are in
  seconds (10 minutes = 600, 5 minutes = 300, 1 hour = 3600).
* Go maps are association lists `List (String × α)` with `mget`, `mput`
  (insert/overwrite) and `mdel` (delete); `mput` conses after erasing the
  key, so lookups see the newest binding, as in a Go map.
* Fallible operations return `Except StoreErr α` mirroring the sentinel
  errors of the Go store (`ErrTokenNotFound`, `ErrTokenExpired`,
  `ErrInvalidState`, `ErrClientNotFound`).
* `crypto/rand` token generation is modelled by injecting the generated
  string as an `Option String` parameter (`none` = generator failure), and
  the upstream Google token refresh by an `Option GoogleToken` result.
* `crypto/sha256` and `encoding/base64` (standard library, not part of the
  repository) are implemented concretely below (`sha256Bytes`,
  `base64urlNoPad`), following FIPS 180-4 and RFC 4648 §5.
-/

namespace GtmMcp

/-! ## Association-list maps (Go `map[string]V`) -/

/-- Lookup in an association-list map. -/
def mget {α : Type} (k : String) : List (String × α) → Option α
  | [] => none
  | (k', v) :: rest => if k = k' then some v else mget k rest

/-- Delete every binding of `k` (a Go `delete(m, k)`). -/
def mdel {α : Type} (k : String) : List (String × α) → List (String × α)
  | [] => []
  | (k', v) :: rest => if k = k' then mdel k rest else (k', v) :: mdel k rest

/-- Insert/overwrite (a Go `m[k] = v`). -/
def mput {α : Type} (k : String) (v : α) (m : List (String × α)) :
    List (String × α) :=
  (k, v) :: mdel k m

theorem mget_mput {α : Type} (k k' : String) (v : α) (m : List (String × α)) :
    mget k (mput k' v m) = if k = k' then some v else mget k m := by
  simp only [mput, mget]
  by_cases h : k = k' <;> simp [h] <;> induction m with
  | nil => simp [mdel, mget]
  | cons p rest ih =>
    obtain ⟨k₂, v₂⟩ := p
    by_cases h₂ : k' = k₂ <;> simp [mdel, mget, h₂, ih] <;>
      by_cases h₃ : k = k₂ <;> simp_all [mget]

theorem mget_mdel {α : Type} (k k' : String) (m : List (String × α)) :
    mget k (mdel k' m) = if k = k' then none else mget k m := by
  by_cases h : k = k' <;> induction m with
  | nil => simp [mdel, mget, h]
  | cons p rest ih =>
    obtain ⟨k₂, v₂⟩ := p
    by_cases h₂ : k' = k₂ <;> by_cases h₃ : k = k₂ <;>
      simp_all [mdel, mget]

/-! ## `isValidRedirectURI` (oauth server)

Source (Go):

    func isValidRedirectURI(uri string) bool {
        validURIs := []string{
            "https://claude.ai/api/mcp/auth_callback",
            "https://claude.com/api/mcp/auth_callback",
            // For local development
            "http://localhost",
            "http://127.0.0.1",
        }
        for _, valid := range validURIs {
            if strings.HasPrefix(uri, valid) {
                return true
            }
        }
        return false
    }
-/

/-- Go `strings.HasPrefix(s, pre)`. -/
def strHasPref (s pre : String) : Bool :=
  List.isPrefixOf pre.data s.data

/-- The literal allow-list of the Go source. -/
def validURIs : List String :=
  ["https://claude.ai/api/mcp/auth_callback",
   "https://claude.com/api/mcp/auth_callback",
   "http://localhost",
   "http://127.0.0.1"]

/-- `isValidRedirectURI` from the oauth server file: a loop of
`strings.HasPrefix` checks over `validURIs`. -/
def isValidRedirectURI (uri : String) : Bool :=
  validURIs.any (fun valid => strHasPref uri valid)

/-! ## Data model of the store (token_store file)

Go `time.Time` is modelled as `Nat`; the zero value is `0`.
`*oauth2.Token` (upstream Google token) is modelled by its fields used in
this subsystem: access token, refresh token, expiry. -/

structure GoogleToken where
  accessToken : String
  refreshToken : String
  expiry : Nat
  deriving DecidableEq, Repr

/-- `TokenInfo`: a broker-issued credential. `refreshExpiresAt = 0` is the
Go zero `time.Time` (`RefreshExpiresAt.IsZero()`). -/
structure TokenInfo where
  accessToken : String
  refreshToken : String
  expiresAt : Nat
  refreshExpiresAt : Nat
  googleToken : GoogleToken
  clientID : String
  createdAt : Nat
  deriving DecidableEq, Repr

/-- `AuthState`: transient OAuth flow state. -/
structure AuthState where
  state : String
  codeVerifier : String
  redirectURI : String
  clientID : String
  resource : String
  createdAt : Nat
  deriving DecidableEq, Repr

/-- `ClientInfo`: a dynamically registered OAuth client. -/
structure ClientInfo where
  clientID : String
  redirectURIs : List String
  clientName : String
  grantTypes : List String
  responseTypes : List String
  tokenEndpointAuthMethod : String
  createdAt : Nat
  deriving DecidableEq, Repr

/-- The sentinel errors of the store
(`ErrTokenNotFound`, `ErrTokenExpired`, `ErrInvalidState`,
`ErrClientNotFound`). -/
inductive StoreErr where
  | tokenNotFound
  | tokenExpired
  | invalidState
  | clientNotFound
  deriving DecidableEq, Repr

/-- The maps of `MemoryTokenStore` (the mutex is implicit: every store
method is one atomic step on this state). -/
structure Store where
  tokens : List (String × TokenInfo)
  states : List (String × AuthState)
  clients : List (String × ClientInfo)
  refreshIndex : List (String × String)
  deriving DecidableEq, Repr

def Store.empty : Store := ⟨[], [], [], []⟩

/-- `MemoryTokenStore.StoreToken` (always returns nil). -/
def StoreToken (s : Store) (info : TokenInfo) : Store :=
  { s with
    tokens := mput info.accessToken info s.tokens
    refreshIndex :=
      if info.refreshToken ≠ "" then
        mput info.refreshToken info.accessToken s.refreshIndex
      else s.refreshIndex }

/-- `MemoryTokenStore.GetTokenByAccess` at instant `now`. -/
def GetTokenByAccess (now : Nat) (s : Store) (accessToken : String) :
    Except StoreErr TokenInfo :=
  match mget accessToken s.tokens with
  | none => .error .tokenNotFound
  | some info =>
    if info.expiresAt < now then .error .tokenExpired else .ok info

/-- `MemoryTokenStore.GetTokenByRefresh` at instant `now`. -/
def GetTokenByRefresh (now : Nat) (s : Store) (refreshToken : String) :
    Except StoreErr TokenInfo :=
  match mget refreshToken s.refreshIndex with
  | none => .error .tokenNotFound
  | some accessToken =>
    match mget accessToken s.tokens with
    | none => .error .tokenNotFound
    | some info =>
      if info.refreshExpiresAt ≠ 0 ∧ info.refreshExpiresAt < now then
        .error .tokenExpired
      else .ok info

/-- `MemoryTokenStore.DeleteToken` (always returns nil). -/
def DeleteToken (s : Store) (accessToken : String) : Store :=
  match mget accessToken s.tokens with
  | some info =>
    { s with
      refreshIndex := mdel info.refreshToken s.refreshIndex
      tokens := mdel accessToken s.tokens }
  | none =>
    { s with tokens := mdel accessToken s.tokens }

/-- `MemoryTokenStore.StoreState` (always returns nil). -/
def StoreState (s : Store) (st : AuthState) : Store :=
  { s with states := mput st.state st s.states }

/-- `MemoryTokenStore.GetState` at instant `now`: states expire after 10
minutes (`time.Since(state.CreatedAt) > 10*time.Minute`). -/
def GetState (now : Nat) (s : Store) (stateValue : String) :
    Except StoreErr AuthState :=
  match mget stateValue s.states with
  | none => .error .invalidState
  | some st =>
    if now - st.createdAt > 600 then .error .invalidState else .ok st

/-- `MemoryTokenStore.ConsumeState`: atomic get-and-delete
(documented in the source as "making auth codes single-use"). -/
def ConsumeState (now : Nat) (s : Store) (stateValue : String) :
    Except StoreErr AuthState × Store :=
  match mget stateValue s.states with
  | none => (.error .invalidState, s)
  | some st =>
    let s' := { s with states := mdel stateValue s.states }
    if now - st.createdAt > 600 then (.error .invalidState, s')
    else (.ok st, s')

/-- `MemoryTokenStore.DeleteState` (always returns nil). -/
def DeleteState (s : Store) (stateValue : String) : Store :=
  { s with states := mdel stateValue s.states }

/-- `MemoryTokenStore.StoreClient` (always returns nil). -/
def StoreClient (s : Store) (client : ClientInfo) : Store :=
  { s with clients := mput client.clientID client s.clients }

/-- `MemoryTokenStore.GetClient`. -/
def GetClient (s : Store) (clientID : String) :
    Except StoreErr ClientInfo :=
  match mget clientID s.clients with
  | none => .error .clientNotFound
  | some client => .ok client

/-- `MemoryTokenStore.DeleteClient` (always returns nil). -/
def DeleteClient (s : Store) (clientID : String) : Store :=
  { s with clients := mdel clientID s.clients }

/-- One token-map pass of the periodic `cleanup` sweep: delete a token when
`now.After(info.ExpiresAt.Add(1*time.Hour))` (access expired with one hour
of grace) or `!info.RefreshExpiresAt.IsZero() &&
now.After(info.RefreshExpiresAt)` (refresh expiry set and passed); the
corresponding refresh-index entry is deleted with it. -/
def sweepTokenGone (now : Nat) (info : TokenInfo) : Bool :=
  decide (info.expiresAt + 3600 < now) ||
    (decide (info.refreshExpiresAt ≠ 0) && decide (info.refreshExpiresAt < now))

def sweepTokens (now : Nat) :
    List (String × TokenInfo) → List (String × TokenInfo) × List String
  | [] => ([], [])
  | (a, info) :: rest =>
    let (kept, gone) := sweepTokens now rest
    if sweepTokenGone now info then (kept, info.refreshToken :: gone)
    else ((a, info) :: kept, gone)

/-- The `cleanup` sweep body for tokens and states (one tick of the
5-minute ticker), executed under the single write lock.  Client eviction
(oldest-first above 1000 entries) is part of the same tick but touches no
claim and is omitted from this embedding. -/
def cleanupSweep (now : Nat) (s : Store) : Store :=
  let (kept, gone) := sweepTokens now s.tokens
  { s with
    tokens := kept
    refreshIndex := gone.foldl (fun idx r => mdel r idx) s.refreshIndex
    states := s.states.filter (fun p => decide (now - p.2.createdAt ≤ 600)) }

/-! ## `crypto/sha256` and `base64.RawURLEncoding` (Go standard library)

`sha256.Sum256` per FIPS 180-4 over byte lists (`List Nat`, each < 256),
and unpadded base64url per RFC 4648 §5, as used by
`base64.RawURLEncoding.EncodeToString`. -/

/-- 32-bit truncation. -/
def w32 (x : Nat) : Nat := x % 4294967296

/-- 32-bit right rotation. -/
def rotr32 (n x : Nat) : Nat := w32 ((x >>> n) ||| (x <<< (32 - n)))

def shaCh (x y z : Nat) : Nat := w32 ((x &&& y) ^^^ ((4294967295 - x) &&& z))

def shaMaj (x y z : Nat) : Nat := w32 ((x &&& y) ^^^ (x &&& z) ^^^ (y &&& z))

def bigSigma0 (x : Nat) : Nat := rotr32 2 x ^^^ rotr32 13 x ^^^ rotr32 22 x

def bigSigma1 (x : Nat) : Nat := rotr32 6 x ^^^ rotr32 11 x ^^^ rotr32 25 x

def smallSigma0 (x : Nat) : Nat := rotr32 7 x ^^^ rotr32 18 x ^^^ (x >>> 3)

def smallSigma1 (x : Nat) : Nat := rotr32 17 x ^^^ rotr32 19 x ^^^ (x >>> 10)

/-- The 64 SHA-256 round constants of FIPS 180-4 §4.2.2 (in decimal). -/
def shaK : List Nat :=
  [1116352408, 1899447441, 3049323471, 3921009573, 961987163,
   1508970993, 2453635748, 2870763221, 3624381080, 310598401,
   607225278, 1426881987, 1925078388, 2162078206, 2614888103,
   3248222580, 3835390401, 4022224774, 264347078, 604807628,
   770255983, 1249150122, 1555081692, 1996064986, 2554220882,
   2821834349, 2952996808, 3210313671, 3336571891, 3584528711,
   113926993, 338241895, 666307205, 773529912, 1294757372,
   1396182291, 1695183700, 1986661051, 2177026350, 2456956037,
   2730485921, 2820302411, 3259730800, 3345764771, 3516065817,
   3600352804, 4094571909, 275423344, 430227734, 506948616,
   659060556, 883997877, 958139571, 1322822218, 1537002063,
   1747873779, 1955562222, 2024104815, 2227730452, 2361852424,
   2428436474, 2756734187, 3204031479, 3329325298]

/-- The SHA-256 initial hash value of FIPS 180-4 §5.3.3 (in decimal). -/
def shaH0 : List Nat :=
  [1779033703, 3144134277, 1013904242, 2773480762,
   1359893119, 2600822924, 528734635, 1541459225]

/-- Big-endian bytes of a 64-bit length. -/
def be64 (n : Nat) : List Nat :=
  [w32 (n >>> 56) % 256, (n >>> 48) % 256, (n >>> 40) % 256,
   (n >>> 32) % 256, (n >>> 24) % 256, (n >>> 16) % 256,
   (n >>> 8) % 256, n % 256]

/-- SHA-256 message padding: append `0x80`, zeros to 56 mod 64, then the
bit length as 8 big-endian bytes. -/
def shaPad (msg : List Nat) : List Nat :=
  let padZeros := (64 - (msg.length + 9) % 64) % 64
  msg ++ [0x80] ++ List.replicate padZeros 0 ++ be64 (8 * msg.length)

/-- The 16 big-endian 32-bit words of one 64-byte block. -/
def blockWords (block : List Nat) : List Nat :=
  (List.range 16).map (fun i =>
    ((block.getD (4 * i) 0) <<< 24) + ((block.getD (4 * i + 1) 0) <<< 16) +
      ((block.getD (4 * i + 2) 0) <<< 8) + block.getD (4 * i + 3) 0)

/-- Extend 16 words to the 64-word message schedule. -/
def shaSchedule (ws : List Nat) : List Nat :=
  (List.range 48).foldl
    (fun ws _ =>
      let n := ws.length
      ws ++ [w32 (smallSigma1 (ws.getD (n - 2) 0) + ws.getD (n - 7) 0 +
                  smallSigma0 (ws.getD (n - 15) 0) + ws.getD (n - 16) 0)])
    ws

/-- One compression round. -/
def shaRound (st : List Nat) (kw : Nat × Nat) : List Nat :=
  match st with
  | [a, b, c, d, e, f, g, h] =>
    let t1 := w32 (h + bigSigma1 e + shaCh e f g + kw.1 + kw.2)
    let t2 := w32 (bigSigma0 a + shaMaj a b c)
    [w32 (t1 + t2), a, b, c, w32 (d + t1), e, f, g]
  | st => st

/-- Process one 64-byte block. -/
def shaBlock (h : List Nat) (block : List Nat) : List Nat :=
  let ws := shaSchedule (blockWords block)
  let st := (shaK.zip ws).foldl (fun st kw => shaRound st kw) h
  (h.zip st).map (fun p => w32 (p.1 + p.2))

/-- `sha256.Sum256`: the 32 digest bytes of a byte list. -/
def sha256Bytes (msg : List Nat) : List Nat :=
  let padded := shaPad msg
  let n := padded.length / 64
  let final := (List.range n).foldl
    (fun h i => shaBlock h ((padded.drop (64 * i)).take 64)) shaH0
  final.flatMap (fun word =>
    [(word >>> 24) % 256, (word >>> 16) % 256, (word >>> 8) % 256, word % 256])

/-- The base64url alphabet of RFC 4648 §5. -/
def b64urlAlphabet : List Char :=
  "ABCDEFGHIJKLMNOPQRSTUVWXYZabcdefghijklmnopqrstuvwxyz0123456789-_".data

def b64urlChar (n : Nat) : Char := b64urlAlphabet.getD n 'A'

/-- Unpadded base64url of a byte list
(`base64.RawURLEncoding.EncodeToString`). -/
def b64urlEncode : List Nat → List Char
  | [] => []
  | [a] => [b64urlChar (a >>> 2), b64urlChar ((a % 4) <<< 4)]
  | [a, b] =>
    [b64urlChar (a >>> 2), b64urlChar (((a % 4) <<< 4) + (b >>> 4)),
     b64urlChar ((b % 16) <<< 2)]
  | a :: b :: c :: rest =>
    b64urlChar (a >>> 2) :: b64urlChar (((a % 4) <<< 4) + (b >>> 4)) ::
      b64urlChar (((b % 16) <<< 2) + (c >>> 6)) :: b64urlChar (c % 64) ::
        b64urlEncode rest

/-- UTF-8 bytes of one character (Go `[]byte(s)` on each rune). -/
def utf8Char (c : Char) : List Nat :=
  let n := c.toNat
  if n < 128 then [n]
  else if n < 2048 then [192 + n / 64, 128 + n % 64]
  else if n < 65536 then
    [224 + n / 4096, 128 + (n / 64) % 64, 128 + n % 64]
  else
    [240 + n / 262144, 128 + (n / 4096) % 64, 128 + (n / 64) % 64,
     128 + n % 64]

/-- Go `[]byte(s)`: the UTF-8 bytes of a string. -/
def utf8Bytes (s : String) : List Nat := s.data.flatMap utf8Char

/-- `base64.RawURLEncoding.EncodeToString(sha256.Sum256([]byte(s)))`:
the PKCE S256 challenge of a verifier. -/
def sha256b64 (s : String) : String :=
  String.mk (b64urlEncode (sha256Bytes (utf8Bytes s)))

/-! ## HTTP responses of the `Server` handlers

`tokenError` and `registrationError` write a 400 JSON body
`{"error": code, "error_description": desc}`; `errorResponse` writes a 400
plain-text body `code: desc`; `tokenResponse` writes the 200 JSON token
response with `token_type "Bearer"`; a successful registration writes the
RFC 7591 response with status 201.  Redirects (302) carry their target. -/

/-- RFC 7591 response of `RegistrationHandler`; `clientSecret = none`
models the omitted (`omitempty`, never assigned) `client_secret` field. -/
structure ClientRegistrationResponse where
  clientID : String
  clientSecret : Option String
  clientSecretExpiresAt : Nat
  redirectURIs : List String
  clientName : String
  grantTypes : List String
  responseTypes : List String
  tokenEndpointAuthMethod : String
  deriving DecidableEq, Repr

inductive Response where
  /-- `http.Error(w, "Method not allowed", 405)` -/
  | methodNotAllowed
  /-- `errorResponse`: HTTP 400, plain text `code: desc`. -/
  | errorResp (code desc : String)
  /-- `tokenError`: HTTP 400, JSON error object. -/
  | tokenErr (code desc : String)
  /-- `tokenResponse`: HTTP 200 with `token_type "Bearer"`. -/
  | tokenOK (accessToken refreshToken : String) (expiresIn : Nat)
  /-- redirect (302) to the upstream consent URL keyed by the combined
  state (`s.google.AuthCodeURL(state)`). -/
  | redirectUpstream (state : String)
  /-- `registrationError`: HTTP 400, JSON error object. -/
  | regErr (code desc : String)
  /-- successful registration: HTTP 201 with the RFC 7591 body. -/
  | regOK (resp : ClientRegistrationResponse)
  deriving DecidableEq, Repr

/-! ## `handleAuthorizationCodeGrant` (POST /token, authorization_code)

Generated random tokens are injected as `Option String` (`none` models a
`GenerateToken` failure).  The sequential semantics below composes the
store calls in source order; the interleaved semantics used for the
single-use analysis is further down (`acgStep`). -/

def handleAuthorizationCodeGrant (now : Nat) (s : Store)
    (code codeVerifier : String) (genAccess genRefresh : Option String) :
    Store × Response :=
  if code = "" then (s, .tokenErr "invalid_request" "Missing code")
  else
    match GetState now s code with
    | .error _ => (s, .tokenErr "invalid_grant" "Invalid or expired code")
    | .ok codeState =>
      if codeVerifier = "" then
        (s, .tokenErr "invalid_request" "Missing code_verifier")
      else if sha256b64 codeVerifier ≠ codeState.codeVerifier then
        (s, .tokenErr "invalid_grant" "PKCE verification failed")
      else
        match GetTokenByAccess now s code with
        | .error _ => (s, .tokenErr "invalid_grant" "Invalid or expired code")
        | .ok tempToken =>
          let s₁ := DeleteState s code
          let s₂ := DeleteToken s₁ code
          match genAccess, genRefresh with
          | none, _ => (s₂, .tokenErr "server_error" "Internal server error")
          | some _, none =>
            (s₂, .tokenErr "server_error" "Internal server error")
          | some accessToken, some refreshToken =>
            let tokenInfo : TokenInfo :=
              { accessToken := accessToken
                refreshToken := refreshToken
                expiresAt := now + 3600
                refreshExpiresAt := 0
                googleToken := tempToken.googleToken
                clientID := codeState.clientID
                createdAt := now }
            (StoreToken s₂ tokenInfo, .tokenOK accessToken refreshToken 3600)

/-! ## `handleRefreshTokenGrant` (POST /token, refresh_token)

`upstream` is the result of `s.google.RefreshToken` when called (`none`
models an upstream failure); `genAccess` the generated access token. -/

def handleRefreshTokenGrant (now : Nat) (s : Store) (refreshToken : String)
    (upstream : Option GoogleToken) (genAccess : Option String) :
    Store × Response :=
  if refreshToken = "" then
    (s, .tokenErr "invalid_request" "Missing refresh_token")
  else
    match GetTokenByRefresh now s refreshToken with
    | .error _ => (s, .tokenErr "invalid_grant" "Invalid refresh token")
    | .ok tokenInfo =>
      let refreshed : Except Unit GoogleToken :=
        if tokenInfo.googleToken.expiry < now then
          match upstream with
          | none => .error ()
          | some t => .ok t
        else .ok tokenInfo.googleToken
      match refreshed with
      | .error _ =>
        (s, .tokenErr "invalid_grant" "Failed to refresh upstream token")
      | .ok googleTok =>
        match genAccess with
        | none => (s, .tokenErr "server_error" "Internal server error")
        | some newAccessToken =>
          let s₁ := DeleteToken s tokenInfo.accessToken
          let newTokenInfo : TokenInfo :=
            { accessToken := newAccessToken
              refreshToken := refreshToken
              expiresAt := now + 3600
              refreshExpiresAt := 0
              googleToken := googleTok
              clientID := tokenInfo.clientID
              createdAt := now }
          (StoreToken s₁ newTokenInfo,
           .tokenOK newAccessToken refreshToken 3600)

/-! ## `AuthorizeHandler` (GET /authorize) -/

structure AuthorizeRequest where
  clientID : String
  redirectURI : String
  responseType : String
  state : String
  codeChallenge : String
  codeChallengeMethod : String
  deriving DecidableEq, Repr

def AuthorizeHandler (now : Nat) (s : Store) (r : AuthorizeRequest)
    (genState : Option String) : Store × Response :=
  if r.responseType ≠ "code" then
    (s, .errorResp "unsupported_response_type"
      "Only 'code' response type is supported")
  else if r.state = "" then
    (s, .errorResp "invalid_request" "State parameter is required")
  else
    let redirectCheck : Option Response :=
      if r.clientID ≠ "" then
        match GetClient s r.clientID with
        | .ok client =>
          if client.redirectURIs.contains r.redirectURI then none
          else some (.errorResp "invalid_request"
            "redirect_uri does not match registered URIs")
        | .error _ =>
          if isValidRedirectURI r.redirectURI then none
          else some (.errorResp "invalid_request" "Invalid redirect_uri")
      else
        if isValidRedirectURI r.redirectURI then none
        else some (.errorResp "invalid_request" "Invalid redirect_uri")
    match redirectCheck with
    | some resp => (s, resp)
    | none =>
      if r.codeChallenge = "" ∨ r.codeChallengeMethod ≠ "S256" then
        (s, .errorResp "invalid_request" "PKCE with S256 is required")
      else
        match genState with
        | none => (s, .errorResp "server_error" "Internal server error")
        | some googleState =>
          let authState : AuthState :=
            { state := googleState ++ "|" ++ r.state
              codeVerifier := r.codeChallenge
              redirectURI := r.redirectURI
              clientID := r.clientID
              resource := ""
              createdAt := now }
          (StoreState s authState, .redirectUpstream authState.state)

/-! ## `RegistrationHandler` (POST /register) and `isValidDCRRedirectURI`

The JSON body is injected already decoded (`none` models a
`json.Decoder.Decode` failure); `genClientID` the generated client id
(`none` = generator failure); `storeOK = false` models a
`store.StoreClient` failure through the `TokenStore` interface. -/

structure ClientRegistrationRequest where
  redirectURIs : List String
  clientName : String
  clientURI : String
  logoURI : String
  grantTypes : List String
  responseTypes : List String
  tokenEndpointAuthMethod : String
  deriving DecidableEq, Repr

/-- First component and remainder of a string split at the first
occurrence of a pattern. -/
def findSub (pat : List Char) : List Char → Option (List Char × List Char)
  | [] => if pat = [] then some ([], []) else none
  | c :: rest =>
    if List.isPrefixOf pat (c :: rest) then
      some ([], (c :: rest).drop pat.length)
    else
      (findSub pat rest).map (fun p => (c :: p.1, p.2))

/-- Modelled subset of Go `net/url.Parse` for the DCR check: the scheme
before the first `"://"` and the authority up to the next `/`, `?` or `#`.
URIs without `"://"` (opaque URIs such as `mailto:` and scheme-less
strings) yield an empty scheme and host, and parse errors also lead to a
`false` result in the source, so both are collapsed to `("", "")`. -/
def urlSchemeHost (uri : String) : String × String :=
  match findSub "://".data uri.data with
  | none => ("", "")
  | some (scheme, rest) =>
    (String.mk scheme,
     String.mk (rest.takeWhile (fun c => c ≠ '/' ∧ c ≠ '?' ∧ c ≠ '#')))

/-- `isValidDCRRedirectURI` (registration file): any HTTPS URI, plus
`localhost`/`127.0.0.1` over http or https; the port is stripped by
`strings.Split(parsed.Host, ":")[0]`. -/
def isValidDCRRedirectURI (uri : String) : Bool :=
  let sh := urlSchemeHost uri
  if sh.1 = "" ∨ sh.2 = "" then false
  else
    let host := String.mk (sh.2.data.takeWhile (fun c => c ≠ ':'))
    if host = "localhost" ∨ host = "127.0.0.1" then
      sh.1 = "http" ∨ sh.1 = "https"
    else sh.1 = "https"

def RegistrationHandler (s : Store) (body : Option ClientRegistrationRequest)
    (genClientID : Option String) (storeOK : Bool) (now : Nat) :
    Store × Response :=
  match body with
  | none => (s, .regErr "invalid_request" "Invalid JSON")
  | some req =>
    if req.redirectURIs = [] then
      (s, .regErr "invalid_redirect_uri" "At least one redirect_uri required")
    else
      match req.redirectURIs.find? (fun uri => ! isValidDCRRedirectURI uri) with
      | some uri =>
        (s, .regErr "invalid_redirect_uri" ("Invalid redirect_uri: " ++ uri))
      | none =>
        match genClientID with
        | none => (s, .regErr "server_error" "Internal server error")
        | some clientID =>
          let resp : ClientRegistrationResponse :=
            { clientID := clientID
              clientSecret := none
              clientSecretExpiresAt := 0
              redirectURIs := req.redirectURIs
              clientName := req.clientName
              grantTypes := ["authorization_code", "refresh_token"]
              responseTypes := ["code"]
              tokenEndpointAuthMethod := "none" }
          let clientInfo : ClientInfo :=
            { clientID := clientID
              redirectURIs := req.redirectURIs
              clientName := req.clientName
              grantTypes := ["authorization_code", "refresh_token"]
              responseTypes := ["code"]
              tokenEndpointAuthMethod := "none"
              createdAt := now }
          if storeOK then (StoreClient s clientInfo, .regOK resp)
          else (s, .regErr "server_error" "Internal server error")

/-! ## Interleaved semantics of `handleAuthorizationCodeGrant`

Every `MemoryTokenStore` method takes the store mutex internally, so each
store call of the handler is one atomic step, and a concurrent request may
interleave between consecutive calls.  `AcgPC` is the program counter of
one request between store calls: `GetState` → (pure PKCE checks +)
`GetTokenByAccess` → `DeleteState` → `DeleteToken` → (token generation +)
`StoreToken`. -/

structure AcgReq where
  code : String
  codeVerifier : String
  genAccess : Option String
  genRefresh : Option String
  deriving DecidableEq, Repr

inductive AcgPC where
  | start
  | afterGet (st : AuthState)
  | afterTemp (st : AuthState) (tt : TokenInfo)
  | afterDelState (st : AuthState) (tt : TokenInfo)
  | afterDelToken (st : AuthState) (tt : TokenInfo)
  | done (r : Response)
  deriving DecidableEq, Repr

/-- One atomic step of one `/token` authorization_code request. -/
def acgStep (now : Nat) (req : AcgReq) : AcgPC → Store → AcgPC × Store
  | .start, s =>
    if req.code = "" then
      (.done (.tokenErr "invalid_request" "Missing code"), s)
    else
      match GetState now s req.code with
      | .error _ =>
        (.done (.tokenErr "invalid_grant" "Invalid or expired code"), s)
      | .ok st => (.afterGet st, s)
  | .afterGet st, s =>
    if req.codeVerifier = "" then
      (.done (.tokenErr "invalid_request" "Missing code_verifier"), s)
    else if sha256b64 req.codeVerifier ≠ st.codeVerifier then
      (.done (.tokenErr "invalid_grant" "PKCE verification failed"), s)
    else
      match GetTokenByAccess now s req.code with
      | .error _ =>
        (.done (.tokenErr "invalid_grant" "Invalid or expired code"), s)
      | .ok tt => (.afterTemp st tt, s)
  | .afterTemp st tt, s => (.afterDelState st tt, DeleteState s req.code)
  | .afterDelState st tt, s => (.afterDelToken st tt, DeleteToken s req.code)
  | .afterDelToken st tt, s =>
    match req.genAccess, req.genRefresh with
    | none, _ => (.done (.tokenErr "server_error" "Internal server error"), s)
    | some _, none =>
      (.done (.tokenErr "server_error" "Internal server error"), s)
    | some accessToken, some refreshToken =>
      let tokenInfo : TokenInfo :=
        { accessToken := accessToken
          refreshToken := refreshToken
          expiresAt := now + 3600
          refreshExpiresAt := 0
          googleToken := tt.googleToken
          clientID := st.clientID
          createdAt := now }
      (.done (.tokenOK accessToken refreshToken 3600), StoreToken s tokenInfo)
  | .done r, s => (.done r, s)

/-- Run two concurrent requests under a schedule: `true` steps the first
request, `false` the second. -/
def acgRace (now : Nat) (r₁ r₂ : AcgReq) :
    List Bool → AcgPC × AcgPC × Store → AcgPC × AcgPC × Store
  | [], m => m
  | b :: rest, (t₁, t₂, s) =>
    if b then
      let (t₁', s') := acgStep now r₁ t₁ s
      acgRace now r₁ r₂ rest (t₁', t₂, s')
    else
      let (t₂', s') := acgStep now r₂ t₂ s
      acgRace now r₁ r₂ rest (t₁, t₂', s')

/-- Sanity: running one request alone to completion agrees with the
sequential handler. -/
theorem acgStep_run_single (now : Nat) (req : AcgReq) (s : Store) :
    (acgRace now req req [true, true, true, true, true]
        (.start, .start, s)).1 =
      .done (handleAuthorizationCodeGrant now s req.code req.codeVerifier
        req.genAccess req.genRefresh).2 ∧
    (acgRace now req req [true, true, true, true, true]
        (.start, .start, s)).2.2 =
      (handleAuthorizationCodeGrant now s req.code req.codeVerifier
        req.genAccess req.genRefresh).1 := by
  by_cases h₀ : req.code = ""
  · simp [acgRace, acgStep, handleAuthorizationCodeGrant, h₀]
  · cases hst : GetState now s req.code with
    | error e =>
      simp [acgRace, acgStep, handleAuthorizationCodeGrant, h₀, hst]
    | ok st =>
      by_cases h₁ : req.codeVerifier = ""
      · simp [acgRace, acgStep, handleAuthorizationCodeGrant, h₀, hst, h₁]
      · by_cases h₂ : sha256b64 req.codeVerifier = st.codeVerifier
        · cases htt : GetTokenByAccess now s req.code with
          | error e =>
            simp [acgRace, acgStep, handleAuthorizationCodeGrant, h₀, hst,
              h₁, h₂, htt]
          | ok tt =>
            cases hga : req.genAccess <;> cases hgr : req.genRefresh <;>
              simp [acgRace, acgStep, handleAuthorizationCodeGrant, h₀, hst,
                h₁, h₂, htt, hga, hgr]
        · simp [acgRace, acgStep, handleAuthorizationCodeGrant, h₀, hst,
            h₁, h₂]

/-! ## Per-IP rate limiter (middleware/ratelimit.go)

The `golang.org/x/time/rate` token bucket (library code, not part of the
repository) is abstracted to a non-refilling token count: `Allow()`
consumes one token when available.  This abstraction is not load-bearing:
the claims proved below concern the visitor-map bound and its fail-closed
behaviour, both decided before `Allow()` is reached. -/

def maxVisitors : Nat := 10000

structure Visitor where
  bucket : Nat
  lastSeen : Nat
  deriving DecidableEq, Repr

structure RateLimiterSt where
  visitors : List (String × Visitor)
  burst : Nat
  deriving DecidableEq, Repr

/-- `RateLimiter.getVisitor`: look up the ip, admit it with a fresh
limiter only while the map is below `maxVisitors`, otherwise
fail closed without evicting. Returns the Go `ok` boolean. -/
def getVisitor (now : Nat) (rl : RateLimiterSt) (ip : String) :
    Bool × RateLimiterSt :=
  match mget ip rl.visitors with
  | none =>
    if maxVisitors ≤ rl.visitors.length then (false, rl)
    else
      (true, { rl with
        visitors := mput ip ⟨rl.burst, now⟩ rl.visitors })
  | some v =>
    (true, { rl with
      visitors := mput ip { v with lastSeen := now } rl.visitors })

/-- `limiter.Allow()` on the visitor's bucket (abstraction of
`x/time/rate`). -/
def allowTake (rl : RateLimiterSt) (ip : String) : Bool × RateLimiterSt :=
  match mget ip rl.visitors with
  | none => (false, rl)
  | some v =>
    if 0 < v.bucket then
      (true, { rl with
        visitors := mput ip { v with bucket := v.bucket - 1 } rl.visitors })
    else (false, rl)

inductive MWResult where
  /-- the wrapped handler runs -/
  | next
  /-- `rateLimitReject`: status, `Retry-After` header, `Content-Type`
  header, body. -/
  | reject (status : Nat) (retryAfter contentType body : String)
  deriving DecidableEq, Repr

/-- The fixed response written by `rateLimitReject`. -/
def rateLimitReject : MWResult :=
  .reject 429 "1" "application/json"
    "\x7b\"error\":\"rate_limit_exceeded\",\"error_description\":\"Too many requests. Please retry later.\"\x7d"

/-- `RateLimiter.Middleware` body for one request from `ip`:
`if !ok || !limiter.Allow() { rateLimitReject(w); return }`. -/
def rlMiddleware (now : Nat) (rl : RateLimiterSt) (ip : String) :
    RateLimiterSt × MWResult :=
  let (ok, rl₁) := getVisitor now rl ip
  if !ok then (rl₁, rateLimitReject)
  else
    let (allowed, rl₂) := allowTake rl₁ ip
    if !allowed then (rl₂, rateLimitReject)
    else (rl₂, .next)

/-- One tick of the limiter's `cleanup` sweep: drop visitors unseen for
over three minutes. -/
def rlSweep (now : Nat) (rl : RateLimiterSt) : RateLimiterSt :=
  { rl with
    visitors := rl.visitors.filter (fun p => decide (now - p.2.lastSeen ≤ 180)) }

inductive RLOp where
  | request (ip : String) (now : Nat)
  | sweep (now : Nat)
  deriving DecidableEq, Repr

def applyRLOp (rl : RateLimiterSt) : RLOp → RateLimiterSt
  | .request ip now => (rlMiddleware now rl ip).1
  | .sweep now => rlSweep now rl

def runRLOps (rl : RateLimiterSt) (ops : List RLOp) : RateLimiterSt :=
  ops.foldl applyRLOp rl

/-! ## Supporting lemmas -/

theorem mget_some_mem {α : Type} {k : String} {v : α}
    {l : List (String × α)} (h : mget k l = some v) : (k, v) ∈ l := by
  induction l with
  | nil => simp [mget] at h
  | cons p rest ih =>
    obtain ⟨k', v'⟩ := p
    by_cases hk : k = k'
    · simp [mget, hk] at h
      simp [hk, h]
    · simp [mget, hk] at h
      simp [ih h]

theorem mdel_eq_of_mget_none {α : Type} {k : String} {l : List (String × α)}
    (h : mget k l = none) : mdel k l = l := by
  induction l with
  | nil => rfl
  | cons p rest ih =>
    obtain ⟨k', v'⟩ := p
    by_cases hk : k = k'
    · simp [mget, hk] at h
    · simp [mget, hk] at h
      simp [mdel, hk, ih h]

theorem mget_none_of_not_mem_keys {α : Type} {k : String}
    {l : List (String × α)} (h : k ∉ l.map Prod.fst) : mget k l = none := by
  induction l with
  | nil => rfl
  | cons p rest ih =>
    obtain ⟨k', v'⟩ := p
    simp only [List.map_cons, List.mem_cons] at h
    push_neg at h
    simp [mget, h.1, ih h.2]

theorem length_mdel_le {α : Type} (k : String) (l : List (String × α)) :
    (mdel k l).length ≤ l.length := by
  induction l with
  | nil => simp [mdel]
  | cons p rest ih =>
    obtain ⟨k', v'⟩ := p
    by_cases hk : k = k'
    · subst hk
      simp only [mdel, if_true, List.length_cons]
      omega
    · simp only [mdel, if_neg hk, List.length_cons]
      omega

theorem length_mdel_lt {α : Type} {k : String} {v : α}
    {l : List (String × α)} (h : mget k l = some v) :
    (mdel k l).length < l.length := by
  induction l with
  | nil => simp [mget] at h
  | cons p rest ih =>
    obtain ⟨k', v'⟩ := p
    by_cases hk : k = k'
    · subst hk
      have := length_mdel_le k rest
      simp only [mdel, if_true, List.length_cons]
      omega
    · simp only [mget, if_neg hk] at h
      have := ih h
      simp only [mdel, if_neg hk, List.length_cons]
      omega

theorem length_mput_le {α : Type} {k : String} {v : α}
    {l : List (String × α)} (v' : α) (h : mget k l = some v) :
    (mput k v' l).length ≤ l.length := by
  have := length_mdel_lt h
  simp [mput]
  omega

theorem length_mput_le_succ {α : Type} (k : String) (v : α)
    (l : List (String × α)) : (mput k v l).length ≤ l.length + 1 := by
  have := length_mdel_le k l
  simp [mput]
  omega

theorem mget_replicate_ne {α : Type} {k k' : String} (v : α) (n : Nat)
    (h : k ≠ k') : mget k (List.replicate n (k', v)) = none := by
  induction n with
  | zero => rfl
  | succ m ih => simp [List.replicate, mget, h, ih]

theorem DeleteToken_tokens (s : Store) (a : String) :
    (DeleteToken s a).tokens = mdel a s.tokens := by
  unfold DeleteToken
  cases mget a s.tokens <;> rfl

/-- Looking up a key among the kept tokens of one sweep pass: on maps with
unique keys, the binding survives exactly when it is not swept. -/
theorem mget_sweepTokens (now : Nat) (a : String)
    (l : List (String × TokenInfo)) (hnd : (l.map Prod.fst).Nodup) :
    mget a (sweepTokens now l).1 =
      match mget a l with
      | none => none
      | some info => if sweepTokenGone now info then none else some info := by
  induction l with
  | nil => simp [sweepTokens, mget]
  | cons p rest ih =>
    obtain ⟨k, info⟩ := p
    simp only [List.map_cons, List.nodup_cons] at hnd
    by_cases hk : a = k
    · subst hk
      have habs : mget a rest = none := mget_none_of_not_mem_keys hnd.1
      by_cases hg : sweepTokenGone now info
      · simp only [sweepTokens, hg, if_true, mget]
        rw [ih hnd.2, habs]
      · simp [sweepTokens, hg, mget]
    · by_cases hg : sweepTokenGone now info
      · simp only [sweepTokens, hg, if_true, mget, hk, if_neg hk]
        exact ih hnd.2
      · simp only [sweepTokens, hg, if_false, mget, if_neg hk, Bool.false_eq_true]
        exact ih hnd.2

theorem getVisitor_length {rl : RateLimiterSt} (now : Nat) (ip : String)
    (h : rl.visitors.length ≤ maxVisitors) :
    ((getVisitor now rl ip).2).visitors.length ≤ maxVisitors := by
  cases hm : mget ip rl.visitors with
  | none =>
    by_cases hf : maxVisitors ≤ rl.visitors.length
    · simpa [getVisitor, hm, hf] using h
    · have := length_mput_le_succ ip (⟨rl.burst, now⟩ : Visitor) rl.visitors
      simp only [getVisitor, hm, hf, if_false]
      omega
  | some v =>
    have := length_mput_le { v with lastSeen := now } hm
    simp only [getVisitor, hm]
    omega

theorem allowTake_length (rl : RateLimiterSt) (ip : String) :
    ((allowTake rl ip).2).visitors.length ≤ rl.visitors.length := by
  unfold allowTake
  cases hm : mget ip rl.visitors with
  | none => simp
  | some v =>
    by_cases hb : 0 < v.bucket
    · have := length_mput_le { v with bucket := v.bucket - 1 } hm
      simp only [hb, if_true]
      omega
    · simp [hb]

theorem rlMiddleware_length {rl : RateLimiterSt} (now : Nat) (ip : String)
    (h : rl.visitors.length ≤ maxVisitors) :
    ((rlMiddleware now rl ip).1).visitors.length ≤ maxVisitors := by
  unfold rlMiddleware
  have h₁ := getVisitor_length now ip h
  have h₂ := allowTake_length (getVisitor now rl ip).2 ip
  by_cases hok : (getVisitor now rl ip).1 <;>
    by_cases hal : (allowTake (getVisitor now rl ip).2 ip).1 <;>
      simp only [hok, hal, Bool.not_true, Bool.not_false, if_true, if_false,
        Bool.true_eq_false, Bool.false_eq_true, reduceIte] <;> omega

theorem runRLOps_length (ops : List RLOp) :
    ∀ rl : RateLimiterSt, rl.visitors.length ≤ maxVisitors →
      (runRLOps rl ops).visitors.length ≤ maxVisitors := by
  induction ops with
  | nil => intro rl h; exact h
  | cons op rest ih =>
    intro rl h
    apply ih
    cases op with
    | request ip now => exact rlMiddleware_length now ip h
    | sweep now =>
      simp only [applyRLOp, rlSweep]
      calc (rl.visitors.filter _).length ≤ rl.visitors.length :=
            List.length_filter_le _ _
        _ ≤ maxVisitors := h

/-! ## Claims -/

/-- C1: `isValidRedirectURI` evaluated at the claim's inputs.  The spec
and the repository's own unit test (`TestIsValidRedirectURI`, case
"subdomain attack - localhost.evil.com") require
`isValidRedirectURI "http://localhost.evil.com/callback" = false`, but
the implementation matches hosts by `strings.HasPrefix` against
`"http://localhost"`, so it returns `true` (last two conjuncts; the test
also expects `https://localhost` to be accepted, and it is not). -/
theorem c1_redirect_uri_eval :
    isValidRedirectURI "https://claude.ai.evil.com/api/mcp/auth_callback" = false ∧
    isValidRedirectURI "https://evil.claude.ai/api/mcp/auth_callback" = false ∧
    isValidRedirectURI "https://claude.ai/api/mcp/auth_callback" = true ∧
    isValidRedirectURI "http://localhost:8080/callback" = true ∧
    isValidRedirectURI "http://localhost.evil.com/callback" = true ∧
    isValidRedirectURI "https://localhost:8080/callback" = false := by
  decide

def gTok0 : GoogleToken := ⟨"g-acc", "g-ref", 1000⟩

/-- The PKCE verifier of RFC 7636 §B and its S256 challenge. -/
def rfcVerifier : String := "dBjftJeZ4CVP-mB92K27uhbUJU1p1r_wW1gFWFOEjXk"

def raceState : AuthState :=
  { state := "c"
    codeVerifier := sha256b64 rfcVerifier
    redirectURI := "http://localhost:8080/callback"
    clientID := "cl"
    resource := ""
    createdAt := 0 }

def raceTemp : TokenInfo :=
  { accessToken := "c"
    refreshToken := ""
    expiresAt := 300
    refreshExpiresAt := 0
    googleToken := gTok0
    clientID := "cl"
    createdAt := 0 }

/-- The store right after `/oauth/callback` issued broker code `"c"`. -/
def raceStore : Store := ⟨[("c", raceTemp)], [("c", raceState)], [], []⟩

def raceReq1 : AcgReq := ⟨"c", rfcVerifier, some "a1", some "r1"⟩

def raceReq2 : AcgReq := ⟨"c", rfcVerifier, some "a2", some "r2"⟩

/-- C2: the code is **not** single-use under concurrency.  The handler
reads the code's `AuthState` with the non-atomic `GetState` (the store's
`ConsumeState`, documented as "making auth codes single-use", is never
called), so under the interleaving in which both requests perform their
`GetState` and `GetTokenByAccess` before either `DeleteState`, both
`/token` requests presenting the same code succeed with fresh token
pairs, where the claim requires exactly one success and one
`invalid_grant`. -/
theorem c2_single_use_race_eval :
    (acgRace 0 raceReq1 raceReq2
      [true, false, true, false, true, false, true, false, true, false]
      (.start, .start, raceStore)).1 = .done (.tokenOK "a1" "r1" 3600) ∧
    (acgRace 0 raceReq1 raceReq2
      [true, false, true, false, true, false, true, false, true, false]
      (.start, .start, raceStore)).2.1 = .done (.tokenOK "a2" "r2" 3600) := by
  constructor <;> rfl

/-- C7: the visitor map, grown from empty by any sequence of rate-limited
requests and cleanup sweeps, never exceeds `maxVisitors` (10000); and a
request from an IP absent from a full map is rejected with HTTP 429,
`Retry-After: 1` and the fixed JSON body, leaving the map unchanged — the
IP is not admitted and no entry is evicted. -/
theorem c7_visitor_cap (ops : List RLOp) (burst : Nat) (rl : RateLimiterSt)
    (ip : String) (now : Nat)
    (hfull : maxVisitors ≤ rl.visitors.length)
    (habsent : mget ip rl.visitors = none) :
    (runRLOps ⟨[], burst⟩ ops).visitors.length ≤ maxVisitors ∧
    rlMiddleware now rl ip =
      (rl, .reject 429 "1" "application/json"
        "\x7b\"error\":\"rate_limit_exceeded\",\"error_description\":\"Too many requests. Please retry later.\"\x7d") := by
  constructor
  · exact runRLOps_length ops ⟨[], burst⟩ (by simp [maxVisitors])
  · unfold rlMiddleware getVisitor
    rw [habsent]
    simp [hfull, rateLimitReject]

/-- Witness for `c7_visitor_cap` at a concrete full map. -/
theorem c7_visitor_cap_witness :
    (runRLOps ⟨[], 2⟩ [.request "1.2.3.4" 0, .sweep 60]).visitors.length ≤
        maxVisitors ∧
    rlMiddleware 7 ⟨List.replicate 10000 ("10.0.0.1", ⟨2, 0⟩), 2⟩ "9.9.9.9" =
      (⟨List.replicate 10000 ("10.0.0.1", ⟨2, 0⟩), 2⟩, .reject 429 "1"
        "application/json"
        "\x7b\"error\":\"rate_limit_exceeded\",\"error_description\":\"Too many requests. Please retry later.\"\x7d") := by
  exact c7_visitor_cap [.request "1.2.3.4" 0, .sweep 60] 2
    ⟨List.replicate 10000 ("10.0.0.1", ⟨2, 0⟩), 2⟩ "9.9.9.9" 7
    (by simp only [List.length_replicate]; exact Nat.le_refl _)
    (mget_replicate_ne (⟨2, 0⟩ : Visitor) 10000 (by decide))

def c3state : AuthState :=
  { state := "c3"
    codeVerifier := sha256b64 ""
    redirectURI := "http://localhost:8080/callback"
    clientID := "cl"
    resource := ""
    createdAt := 0 }

def c3temp : TokenInfo :=
  { accessToken := "c3"
    refreshToken := ""
    expiresAt := 300
    refreshExpiresAt := 0
    googleToken := gTok0
    clientID := "cl"
    createdAt := 0 }

def c3store : Store := StoreToken (StoreState Store.empty c3state) c3temp

/-- C3 counterexample: an empty `code_verifier` whose S256 hash equals the
stored challenge.  The claim says the exchange succeeds exactly when the
hash matches and that any mismatch, including an empty verifier, yields
`invalid_grant` "PKCE verification failed"; the code instead short-circuits
on the empty verifier with `invalid_request` "Missing code_verifier", even
though the hash matches (so the exchange also fails with a matching
hash, refuting the "if" direction). -/
theorem c3_pkce_empty_verifier_counterexample :
    sha256b64 "" = c3state.codeVerifier ∧
    (handleAuthorizationCodeGrant 0 c3store "c3" "" (some "a") (some "r")).2 =
      .tokenErr "invalid_request" "Missing code_verifier" := by
  exact ⟨rfl, rfl⟩

/-- C3 amended: with the code state and temporary credential present, a
**non-empty** verifier succeeds iff its S256 hash (base64url, no padding)
equals the stored challenge, a non-empty mismatch yields `invalid_grant`
"PKCE verification failed", and an empty verifier yields
`invalid_request` "Missing code_verifier". -/
theorem c3_pkce_amended (now : Nat) (s : Store) (code verifier a r : String)
    (st : AuthState) (temp : TokenInfo)
    (hc : code ≠ "")
    (hst : GetState now s code = .ok st)
    (htt : GetTokenByAccess now s code = .ok temp) :
    ((handleAuthorizationCodeGrant now s code verifier (some a) (some r)).2 =
        .tokenOK a r 3600 ↔
      verifier ≠ "" ∧ sha256b64 verifier = st.codeVerifier) ∧
    (verifier = "" →
      (handleAuthorizationCodeGrant now s code verifier (some a) (some r)).2 =
        .tokenErr "invalid_request" "Missing code_verifier") ∧
    (verifier ≠ "" → sha256b64 verifier ≠ st.codeVerifier →
      (handleAuthorizationCodeGrant now s code verifier (some a) (some r)).2 =
        .tokenErr "invalid_grant" "PKCE verification failed") := by
  by_cases hv : verifier = ""
  · simp [handleAuthorizationCodeGrant, hc, hst, hv]
  · by_cases hh : sha256b64 verifier = st.codeVerifier
    · simp [handleAuthorizationCodeGrant, hc, hst, htt, hv, hh]
    · simp [handleAuthorizationCodeGrant, hc, hst, hv, hh]

/-- Witness for `c3_pkce_amended`: the RFC 7636 verifier against its own
stored challenge succeeds. -/
theorem c3_pkce_amended_witness :
    (handleAuthorizationCodeGrant 0 raceStore "c" rfcVerifier
        (some "a") (some "r")).2 = .tokenOK "a" "r" 3600 := by
  have h := c3_pkce_amended 0 raceStore "c" rfcVerifier "a" "r"
    raceState raceTemp (by decide) (by rfl) (by rfl)
  exact h.1.mpr ⟨by decide, rfl⟩

def c4tok : TokenInfo :=
  { accessToken := "at"
    refreshToken := "rt"
    expiresAt := 1000
    refreshExpiresAt := 500
    googleToken := gTok0
    clientID := "cl"
    createdAt := 0 }

def c4store : Store := StoreToken Store.empty c4tok

/-- C4 counterexample: at sweep time 600 the sweep deletes a credential
whose refresh expiry (500) has passed but whose access expiry (1000) is
still in the future, so it is not the case that every deleted
credential has both expiries in the past. -/
theorem c4_sweep_counterexample :
    mget "at" c4store.tokens = some c4tok ∧
    mget "at" (cleanupSweep 600 c4store).tokens = none ∧
    ¬ (c4tok.expiresAt < 600 ∧ c4tok.refreshExpiresAt < 600) := by
  decide

/-- C4 amended: the sweep deletes a stored credential exactly when its
access expiry lies more than one hour in the past **or** its refresh
expiry is set (non-zero) and in the past; in particular, for credentials
with no refresh expiry — the only kind the `/token` handlers mint —
deletion implies the access expiry passed more than an hour before the
sweep. -/
theorem c4_sweep_amended (now : Nat) (s : Store) (a : String)
    (info : TokenInfo)
    (hnd : (s.tokens.map Prod.fst).Nodup)
    (hin : mget a s.tokens = some info) :
    (mget a (cleanupSweep now s).tokens = none ↔
      (info.expiresAt + 3600 < now ∨
        (info.refreshExpiresAt ≠ 0 ∧ info.refreshExpiresAt < now))) := by
  show (mget a (sweepTokens now s.tokens).1 = none ↔ _)
  rw [mget_sweepTokens now a s.tokens hnd, hin]
  by_cases hg : sweepTokenGone now info
  · simp only [hg, if_true, true_iff]
    simpa [sweepTokenGone, Bool.or_eq_true, Bool.and_eq_true,
      decide_eq_true_eq] using hg
  · simp only [hg, if_false, Bool.false_eq_true, reduceIte]
    constructor
    · intro hcontra; exact absurd hcontra (by simp)
    · intro hcond
      exact absurd (by simpa [sweepTokenGone, Bool.or_eq_true,
        Bool.and_eq_true, decide_eq_true_eq] using hcond) hg

/-- Witness for `c4_sweep_amended`: the broker-minted shape
(refresh expiry 0) is deleted at `now = 5000 > 1000 + 3600`. -/
theorem c4_sweep_amended_witness :
    mget "a1" (cleanupSweep 5000
        (StoreToken Store.empty
          ⟨"a1", "r1", 1000, 0, gTok0, "cl", 0⟩)).tokens = none := by
  have h := c4_sweep_amended 5000
    (StoreToken Store.empty ⟨"a1", "r1", 1000, 0, gTok0, "cl", 0⟩)
    "a1" ⟨"a1", "r1", 1000, 0, gTok0, "cl", 0⟩ (by decide) (by decide)
  exact h.mpr (Or.inl (by decide))

/-- C5: a successful `refresh_token` grant returns the presented refresh
token unchanged together with the newly generated access token, and the
previously stored access token of the credential is afterwards
`tokenNotFound` via `GetTokenByAccess` (provided the fresh token differs
from the old one, as distinct random generation guarantees). -/
theorem c5_refresh_preserves_identity (now : Nat) (s : Store) (rt : String)
    (upstream : Option GoogleToken) (old : TokenInfo) (gTok : GoogleToken)
    (a : String)
    (hrt : rt ≠ "")
    (hlook : GetTokenByRefresh now s rt = .ok old)
    (hup : (if old.googleToken.expiry < now then upstream
            else some old.googleToken) = some gTok)
    (hfresh : a ≠ old.accessToken) :
    (handleRefreshTokenGrant now s rt upstream (some a)).2 =
      .tokenOK a rt 3600 ∧
    GetTokenByAccess now (handleRefreshTokenGrant now s rt upstream (some a)).1
      old.accessToken = .error .tokenNotFound := by
  have hout : handleRefreshTokenGrant now s rt upstream (some a) =
      (StoreToken (DeleteToken s old.accessToken)
        { accessToken := a
          refreshToken := rt
          expiresAt := now + 3600
          refreshExpiresAt := 0
          googleToken := gTok
          clientID := old.clientID
          createdAt := now },
       .tokenOK a rt 3600) := by
    by_cases hexp : old.googleToken.expiry < now
    · rw [if_pos hexp] at hup
      simp [handleRefreshTokenGrant, hrt, hlook, hexp, hup]
    · rw [if_neg hexp] at hup
      obtain rfl : old.googleToken = gTok := Option.some.inj hup
      simp [handleRefreshTokenGrant, hrt, hlook, hexp]
  refine ⟨by rw [hout], ?_⟩
  rw [hout]
  simp only [GetTokenByAccess, StoreToken, DeleteToken_tokens]
  rw [mget_mput]
  rw [if_neg (fun h => hfresh h.symm), mget_mdel, if_pos rfl]

def c5old : TokenInfo :=
  { accessToken := "oldacc"
    refreshToken := "rt5"
    expiresAt := 100
    refreshExpiresAt := 0
    googleToken := ⟨"g-acc", "g-ref", 50⟩
    clientID := "cl"
    createdAt := 0 }

def c5store : Store := StoreToken Store.empty c5old

/-- Witness for `c5_refresh_preserves_identity` at `now = 10` (upstream
token still valid, so no upstream refresh is needed). -/
theorem c5_refresh_preserves_identity_witness :
    (handleRefreshTokenGrant 10 c5store "rt5" none (some "newacc")).2 =
      .tokenOK "newacc" "rt5" 3600 ∧
    GetTokenByAccess 10
      (handleRefreshTokenGrant 10 c5store "rt5" none (some "newacc")).1
      "oldacc" = .error .tokenNotFound := by
  exact c5_refresh_preserves_identity 10 c5store "rt5" none c5old
    ⟨"g-acc", "g-ref", 50⟩ "newacc" (by decide) rfl (by decide)
    (by decide)

/-- C8: at `/authorize`, when the presented `client_id` resolves to a
registered client, a `redirect_uri` outside that client's registered list
is rejected with `invalid_request`
("redirect_uri does not match registered URIs"), even when the URI passes
the default `isValidRedirectURI` policy; the store is unchanged. -/
theorem c8_registered_client_precedence (now : Nat) (s : Store)
    (r : AuthorizeRequest) (genState : Option String) (client : ClientInfo)
    (hrt : r.responseType = "code")
    (hst : r.state ≠ "")
    (hcid : r.clientID ≠ "")
    (hclient : GetClient s r.clientID = .ok client)
    (hnot : client.redirectURIs.contains r.redirectURI = false)
    (hdefault : isValidRedirectURI r.redirectURI = true) :
    AuthorizeHandler now s r genState =
      (s, .errorResp "invalid_request"
        "redirect_uri does not match registered URIs") := by
  have hnot' : r.redirectURI ∉ client.redirectURIs := by simpa using hnot
  simp [AuthorizeHandler, hrt, hst, hcid, hclient, hnot']

def c8client : ClientInfo :=
  { clientID := "client8"
    redirectURIs := ["https://example.com/callback"]
    clientName := "c8"
    grantTypes := ["authorization_code", "refresh_token"]
    responseTypes := ["code"]
    tokenEndpointAuthMethod := "none"
    createdAt := 0 }

def c8req : AuthorizeRequest :=
  { clientID := "client8"
    redirectURI := "https://claude.ai/api/mcp/auth_callback"
    responseType := "code"
    state := "s8"
    codeChallenge := "ch8"
    codeChallengeMethod := "S256" }

/-- Witness for `c8_registered_client_precedence`: the allow-listed
production callback is rejected for a client registered with a different
redirect URI. -/
theorem c8_registered_client_precedence_witness :
    AuthorizeHandler 0 (StoreClient Store.empty c8client) c8req
        (some "gs8") =
      (StoreClient Store.empty c8client, .errorResp "invalid_request"
        "redirect_uri does not match registered URIs") := by
  exact c8_registered_client_precedence 0 (StoreClient Store.empty c8client)
    c8req (some "gs8") c8client (by decide) (by decide) (by decide)
    rfl (by decide) (by decide)

/-- C10: both `/token` handlers mint credentials whose
`RefreshExpiresAt` is the zero value, and `GetTokenByRefresh` never
reports a credential with zero refresh expiry as expired: its refresh
token resolves to the credential for any `now`, as long as it is present
in the store. -/
theorem c10_refresh_never_expires :
    (∀ now s code verifier genA genR s' a rt e,
      handleAuthorizationCodeGrant now s code verifier genA genR =
        (s', .tokenOK a rt e) →
      ∃ info, mget a s'.tokens = some info ∧ info.refreshExpiresAt = 0 ∧
        info.refreshToken = rt) ∧
    (∀ now s rt upstream genA s' a rt' e,
      handleRefreshTokenGrant now s rt upstream genA = (s', .tokenOK a rt' e) →
      ∃ info, mget a s'.tokens = some info ∧ info.refreshExpiresAt = 0 ∧
        info.refreshToken = rt') ∧
    (∀ now s r a info, mget r s.refreshIndex = some a →
      mget a s.tokens = some info → info.refreshExpiresAt = 0 →
      GetTokenByRefresh now s r = .ok info) := by
  refine ⟨?_, ?_, ?_⟩
  · intro now s code verifier genA genR s' a rt e h
    by_cases h₀ : code = ""
    · simp [handleAuthorizationCodeGrant, h₀] at h
    · cases hst : GetState now s code with
      | error err => simp [handleAuthorizationCodeGrant, h₀, hst] at h
      | ok st =>
        by_cases h₁ : verifier = ""
        · simp [handleAuthorizationCodeGrant, h₀, hst, h₁] at h
        · by_cases h₂ : sha256b64 verifier = st.codeVerifier
          · cases htt : GetTokenByAccess now s code with
            | error err =>
              simp [handleAuthorizationCodeGrant, h₀, hst, h₁, h₂, htt] at h
            | ok tt =>
              cases genA with
              | none =>
                simp [handleAuthorizationCodeGrant, h₀, hst, h₁, h₂, htt] at h
              | some acc =>
                cases genR with
                | none =>
                  simp [handleAuthorizationCodeGrant, h₀, hst, h₁, h₂,
                    htt] at h
                | some rft =>
                  simp only [handleAuthorizationCodeGrant, h₀, hst, h₁, h₂,
                    htt, if_neg, ne_eq, not_true_eq_false, if_false,
                    reduceIte, Prod.mk.injEq, Response.tokenOK.injEq] at h
                  obtain ⟨hs', ha, hrt, _⟩ := h
                  subst hs' ha hrt
                  simp only [StoreToken, mget_mput, if_pos rfl]
                  exact ⟨_, rfl, rfl, rfl⟩
          · simp [handleAuthorizationCodeGrant, h₀, hst, h₁, h₂] at h
  · intro now s rt upstream genA s' a rt' e h
    by_cases h₀ : rt = ""
    · simp [handleRefreshTokenGrant, h₀] at h
    · cases hlk : GetTokenByRefresh now s rt with
      | error err => simp [handleRefreshTokenGrant, h₀, hlk] at h
      | ok old =>
        by_cases hexp : old.googleToken.expiry < now
        · cases hu : upstream with
          | none => simp [handleRefreshTokenGrant, h₀, hlk, hexp, hu] at h
          | some gt =>
            cases genA with
            | none => simp [handleRefreshTokenGrant, h₀, hlk, hexp, hu] at h
            | some acc =>
              simp only [handleRefreshTokenGrant, h₀, hlk, hexp, hu,
                if_neg, ne_eq, not_true_eq_false, if_false, reduceIte,
                Prod.mk.injEq, Response.tokenOK.injEq] at h
              obtain ⟨hs', ha, hrt, _⟩ := h
              subst hs' ha hrt
              simp only [StoreToken, mget_mput, if_pos rfl]
              exact ⟨_, rfl, rfl, rfl⟩
        · cases genA with
          | none => simp [handleRefreshTokenGrant, h₀, hlk, hexp] at h
          | some acc =>
            simp only [handleRefreshTokenGrant, h₀, hlk, hexp,
              if_neg, ne_eq, not_true_eq_false, if_false, reduceIte,
              Prod.mk.injEq, Response.tokenOK.injEq] at h
            obtain ⟨hs', ha, hrt, _⟩ := h
            subst hs' ha hrt
            simp only [StoreToken, mget_mput, if_pos rfl]
            exact ⟨_, rfl, rfl, rfl⟩
  · intro now s r a info hidx htok hz
    simp [GetTokenByRefresh, hidx, htok, hz]

/-- Witness for `c10_refresh_never_expires`: the credential minted by the
witness refresh grant of C5 still resolves by refresh token at a far
future instant. -/
theorem c10_refresh_never_expires_witness :
    GetTokenByRefresh 999999999
      (StoreToken Store.empty c5old) "rt5" = .ok c5old := by
  exact c10_refresh_never_expires.2.2 999999999
    (StoreToken Store.empty c5old) "rt5" "oldacc" c5old
    (by decide) (by decide) (by decide)

/-! ## C6: the refresh-token secondary index -/

inductive TokOp where
  | store (info : TokenInfo)
  | del (accessToken : String)
  deriving DecidableEq, Repr

def applyTokOp (s : Store) : TokOp → Store
  | .store info => StoreToken s info
  | .del a => DeleteToken s a

def runTokOps (s : Store) (ops : List TokOp) : Store :=
  ops.foldl applyTokOp s

/-- Freshness precondition for one `StoreToken`: the refresh token is not
held by a credential stored under a different access token, and a
credential overwritten in place keeps its refresh token. Both hold for
every `StoreToken` the broker performs. -/
def okStoreB (s : Store) (info : TokenInfo) : Bool :=
  s.tokens.all (fun p =>
    (p.2.refreshToken != info.refreshToken || p.1 == info.accessToken) &&
      (p.1 != info.accessToken || p.2.refreshToken == info.refreshToken))

def okOpB (s : Store) : TokOp → Bool
  | .store info => okStoreB s info
  | .del _ => true

def okOpsB : Store → List TokOp → Bool
  | _, [] => true
  | s, op :: rest => okOpB s op && okOpsB (applyTokOp s op) rest

/-- The secondary-index invariant: every index entry maps a refresh token
to a stored credential holding it, and every stored credential with a
non-empty refresh token is indexed under it. -/
def IndexInv (s : Store) : Prop :=
  (∀ r a, mget r s.refreshIndex = some a →
    ∃ info, mget a s.tokens = some info ∧ info.refreshToken = r) ∧
  (∀ a info, mget a s.tokens = some info → info.refreshToken ≠ "" →
    mget info.refreshToken s.refreshIndex = some a)

theorem indexInv_empty : IndexInv Store.empty := by
  constructor
  · intro r a h
    simp [Store.empty, mget] at h
  · intro a info h
    simp [Store.empty, mget] at h

theorem indexInv_StoreToken {s : Store} {info : TokenInfo}
    (hinv : IndexInv s) (hok : okStoreB s info = true) :
    IndexInv (StoreToken s info) := by
  obtain ⟨h1, h2⟩ := hinv
  have hall : ∀ p ∈ s.tokens,
      (p.2.refreshToken = info.refreshToken → p.1 = info.accessToken) ∧
      (p.1 = info.accessToken → p.2.refreshToken = info.refreshToken) := by
    intro p hp
    have := (List.all_eq_true.mp hok) p hp
    constructor
    · intro hr
      rcases (Bool.or_eq_true _ _).mp ((Bool.and_eq_true _ _).mp this).1 with
        hcase | hcase
      · exact absurd hr (bne_iff_ne.mp hcase)
      · exact beq_iff_eq.mp hcase
    · intro hk
      rcases (Bool.or_eq_true _ _).mp ((Bool.and_eq_true _ _).mp this).2 with
        hcase | hcase
      · exact absurd hk (bne_iff_ne.mp hcase)
      · exact beq_iff_eq.mp hcase
  have hA : ∀ a' info', mget a' s.tokens = some info' →
      info'.refreshToken = info.refreshToken → a' = info.accessToken :=
    fun a' info' hm hr => ((hall _ (mget_some_mem hm)).1 hr)
  have hB : ∀ info', mget info.accessToken s.tokens = some info' →
      info'.refreshToken = info.refreshToken :=
    fun info' hm => ((hall _ (mget_some_mem hm)).2 rfl)
  constructor
  · intro r a hidx
    by_cases hrt : info.refreshToken = ""
    · rw [show (StoreToken s info).refreshIndex = s.refreshIndex by
        simp [StoreToken, hrt]] at hidx
      obtain ⟨info', hm, hr⟩ := h1 r a hidx
      by_cases hak : a = info.accessToken
      · subst hak
        have : info'.refreshToken = info.refreshToken := hB info' hm
        refine ⟨info, ?_, ?_⟩
        · simp [StoreToken, mget_mput]
        · rw [← hr, this]
      · refine ⟨info', ?_, hr⟩
        simp [StoreToken, mget_mput, hak, hm]
    · rw [show (StoreToken s info).refreshIndex =
          mput info.refreshToken info.accessToken s.refreshIndex by
        simp [StoreToken, hrt]] at hidx
      rw [mget_mput] at hidx
      by_cases hr : r = info.refreshToken
      · rw [if_pos hr] at hidx
        obtain rfl : a = info.accessToken := (Option.some.inj hidx).symm
        refine ⟨info, ?_, hr.symm⟩
        simp [StoreToken, mget_mput]
      · rw [if_neg hr] at hidx
        obtain ⟨info', hm, hrfl⟩ := h1 r a hidx
        by_cases hak : a = info.accessToken
        · subst hak
          exact absurd (hrfl.symm.trans (hB info' hm)) hr
        · refine ⟨info', ?_, hrfl⟩
          simp [StoreToken, mget_mput, hak, hm]
  · intro a info₂ hm' hne
    have htok : (StoreToken s info).tokens = mput info.accessToken info s.tokens := rfl
    rw [htok, mget_mput] at hm'
    by_cases hak : a = info.accessToken
    · rw [if_pos hak] at hm'
      obtain rfl : info₂ = info := (Option.some.inj hm').symm
      rw [show (StoreToken s info₂).refreshIndex =
          mput info₂.refreshToken info₂.accessToken s.refreshIndex by
        simp [StoreToken, hne]]
      rw [mget_mput, if_pos rfl, hak]
    · rw [if_neg hak] at hm'
      have hidx := h2 a info₂ hm' hne
      by_cases hrt : info.refreshToken = ""
      · rw [show (StoreToken s info).refreshIndex = s.refreshIndex by
          simp [StoreToken, hrt]]
        exact hidx
      · rw [show (StoreToken s info).refreshIndex =
            mput info.refreshToken info.accessToken s.refreshIndex by
          simp [StoreToken, hrt]]
        rw [mget_mput]
        have hr2 : info₂.refreshToken ≠ info.refreshToken := fun hcon =>
          hak (hA a info₂ hm' hcon)
        rw [if_neg hr2]
        exact hidx

theorem indexInv_DeleteToken {s : Store} (hinv : IndexInv s) (a₀ : String) :
    IndexInv (DeleteToken s a₀) := by
  obtain ⟨h1, h2⟩ := hinv
  cases hdel : mget a₀ s.tokens with
  | none =>
    constructor
    · intro r a hidx
      simp only [DeleteToken, hdel] at hidx ⊢
      obtain ⟨info', hm, hr⟩ := h1 r a hidx
      have hne : a ≠ a₀ := fun hcon => by rw [hcon, hdel] at hm; cases hm
      refine ⟨info', ?_, hr⟩
      rw [mget_mdel, if_neg hne]
      exact hm
    · intro a info₂ hm' hne
      simp only [DeleteToken, hdel] at hm' ⊢
      rw [mget_mdel] at hm'
      by_cases hak : a = a₀
      · rw [if_pos hak] at hm'; cases hm'
      · rw [if_neg hak] at hm'
        exact h2 a info₂ hm' hne
  | some info =>
    constructor
    · intro r a hidx
      simp only [DeleteToken, hdel] at hidx ⊢
      rw [mget_mdel] at hidx
      by_cases hr : r = info.refreshToken
      · rw [if_pos hr] at hidx; cases hidx
      · rw [if_neg hr] at hidx
        obtain ⟨info', hm, hrfl⟩ := h1 r a hidx
        have hne : a ≠ a₀ := fun hcon => by
          rw [hcon, hdel] at hm
          obtain rfl : info = info' := Option.some.inj hm
          exact hr hrfl.symm
        refine ⟨info', ?_, hrfl⟩
        rw [mget_mdel, if_neg hne]
        exact hm
    · intro a info₂ hm' hne
      simp only [DeleteToken, hdel] at hm' ⊢
      rw [mget_mdel] at hm'
      by_cases hak : a = a₀
      · rw [if_pos hak] at hm'; cases hm'
      · rw [if_neg hak] at hm'
        have hidx := h2 a info₂ hm' hne
        have hr2 : info₂.refreshToken ≠ info.refreshToken := by
          intro hcon
          have hinfone : info.refreshToken ≠ "" := by
            rw [← hcon]; exact hne
          have := h2 a₀ info hdel hinfone
          rw [hcon] at hidx
          rw [hidx] at this
          exact hak (Option.some.inj this)
        rw [mget_mdel, if_neg hr2]
        exact hidx

theorem indexInv_runTokOps : ∀ (ops : List TokOp) (s : Store),
    IndexInv s → okOpsB s ops = true → IndexInv (runTokOps s ops) := by
  intro ops
  induction ops with
  | nil => intro s h _; exact h
  | cons op rest ih =>
    intro s h hok
    rw [okOpsB, Bool.and_eq_true] at hok
    have hstep : IndexInv (applyTokOp s op) := by
      cases op with
      | store info => exact indexInv_StoreToken h hok.1
      | del a => exact indexInv_DeleteToken h a
    exact ih (applyTokOp s op) hstep hok.2

/-- C6 amended: starting from the empty store, any sequence of
`StoreToken`/`DeleteToken` operations in which each stored credential's
refresh token is not already held by a different stored credential (and
in-place overwrites keep their refresh token) maintains the index
invariant, and `GetTokenByRefresh` is exact: `tokenNotFound` when no
stored credential holds the refresh token, and the unique holder when one
does and its refresh expiry (if set) has not passed. -/
theorem c6_refresh_index_amended (ops : List TokOp) (now : Nat)
    (hops : okOpsB Store.empty ops = true) :
    IndexInv (runTokOps Store.empty ops) ∧
    (∀ r, r ≠ "" →
      ((∀ a info, mget a (runTokOps Store.empty ops).tokens = some info →
          info.refreshToken ≠ r) →
        GetTokenByRefresh now (runTokOps Store.empty ops) r =
          .error .tokenNotFound) ∧
      (∀ a info, mget a (runTokOps Store.empty ops).tokens = some info →
        info.refreshToken = r →
        (info.refreshExpiresAt = 0 ∨ ¬ info.refreshExpiresAt < now) →
        GetTokenByRefresh now (runTokOps Store.empty ops) r = .ok info)) := by
  have hinv := indexInv_runTokOps ops Store.empty indexInv_empty hops
  refine ⟨hinv, ?_⟩
  intro r hr
  obtain ⟨h1, h2⟩ := hinv
  constructor
  · intro hnone
    cases hm : mget r (runTokOps Store.empty ops).refreshIndex with
    | none => simp [GetTokenByRefresh, hm]
    | some a =>
      obtain ⟨info, hmtok, hrfl⟩ := h1 r a hm
      exact absurd hrfl (hnone a info hmtok)
  · intro a info hm hrf hexp
    have hidx := h2 a info hm (by rw [hrf]; exact hr)
    rw [hrf] at hidx
    have hcond : ¬ (info.refreshExpiresAt ≠ 0 ∧ info.refreshExpiresAt < now) := by
      rcases hexp with h | h
      · exact fun hc => hc.1 h
      · exact fun hc => h hc.2
    simp [GetTokenByRefresh, hidx, hm, hcond]

def c6A : TokenInfo := ⟨"a1", "r", 1000, 0, gTok0, "cl", 0⟩

def c6B : TokenInfo := ⟨"a2", "r", 1000, 0, gTok0, "cl", 0⟩

def c6ops : List TokOp := [.store c6A, .store c6B, .del "a2"]

/-- C6 counterexample: after storing two credentials sharing refresh
token `"r"` and deleting the second, the first still holds `"r"` in the
store but `GetTokenByRefresh` reports `tokenNotFound` — the index is not
kept consistent by arbitrary store/delete sequences, refuting the claim
as stated. -/
theorem c6_refresh_index_counterexample :
    mget "a1" (runTokOps Store.empty c6ops).tokens = some c6A ∧
    c6A.refreshToken = "r" ∧
    GetTokenByRefresh 0 (runTokOps Store.empty c6ops) "r" =
      .error .tokenNotFound := by
  exact ⟨rfl, rfl, rfl⟩

/-- Witness for `c6_refresh_index_amended` on a concrete legal
sequence. -/
theorem c6_refresh_index_amended_witness :
    GetTokenByRefresh 0
      (runTokOps Store.empty [.store c6A, .del "a1", .store c6B]) "r" =
      .ok c6B := by
  have h := c6_refresh_index_amended [.store c6A, .del "a1", .store c6B] 0
    (by decide)
  exact (h.2 "r" (by decide)).2 "a2" c6B rfl rfl (Or.inl rfl)

def c9evilReq : ClientRegistrationRequest :=
  { redirectURIs := ["https://evil.com/callback"]
    clientName := "evil"
    clientURI := ""
    logoURI := ""
    grantTypes := []
    responseTypes := []
    tokenEndpointAuthMethod := "" }

/-- C9 counterexample: `POST /register` validates redirect URIs with
`isValidDCRRedirectURI` (any HTTPS URI, or localhost over http/https),
which is strictly more permissive than the §4.6 policy enforced at
`/authorize` (`isValidRedirectURI`): `https://evil.com/callback` fails
the §4.6 policy yet registration succeeds instead of returning
`invalid_redirect_uri`. -/
theorem c9_dcr_policy_counterexample :
    isValidRedirectURI "https://evil.com/callback" = false ∧
    isValidDCRRedirectURI "https://evil.com/callback" = true ∧
    (RegistrationHandler Store.empty (some c9evilReq) (some "cid9") true 0).2 =
      .regOK
        { clientID := "cid9"
          clientSecret := none
          clientSecretExpiresAt := 0
          redirectURIs := ["https://evil.com/callback"]
          clientName := "evil"
          grantTypes := ["authorization_code", "refresh_token"]
          responseTypes := ["code"]
          tokenEndpointAuthMethod := "none" } := by
  exact ⟨by decide, by decide, rfl⟩

/-- C9 amended: `POST /register` returns `invalid_request` for a
malformed JSON body, `invalid_redirect_uri` when the redirect-URI list is
empty or some listed URI fails the **DCR** redirect-URI policy
(`isValidDCRRedirectURI`: any HTTPS URI, or `localhost`/`127.0.0.1` over
http or https — deliberately more permissive than the `/authorize`
policy), and `server_error` when the generator or the store fails; on
success it mints the generated client id, persists the RegisteredClient,
and issues no client secret (`token_endpoint_auth_method` "none"). -/
theorem c9_registration_amended (s : Store)
    (body : Option ClientRegistrationRequest)
    (genClientID : Option String) (storeOK : Bool) (now : Nat) :
    (body = none →
      RegistrationHandler s body genClientID storeOK now =
        (s, .regErr "invalid_request" "Invalid JSON")) ∧
    (∀ req, body = some req → req.redirectURIs = [] →
      RegistrationHandler s body genClientID storeOK now =
        (s, .regErr "invalid_redirect_uri"
          "At least one redirect_uri required")) ∧
    (∀ req uri, body = some req →
      req.redirectURIs.find? (fun u => ! isValidDCRRedirectURI u) =
        some uri →
      RegistrationHandler s body genClientID storeOK now =
        (s, .regErr "invalid_redirect_uri" ("Invalid redirect_uri: " ++ uri))) ∧
    (∀ req, body = some req → req.redirectURIs ≠ [] →
      (∀ u ∈ req.redirectURIs, isValidDCRRedirectURI u = true) →
      genClientID = none →
      RegistrationHandler s body genClientID storeOK now =
        (s, .regErr "server_error" "Internal server error")) ∧
    (∀ req cid, body = some req → req.redirectURIs ≠ [] →
      (∀ u ∈ req.redirectURIs, isValidDCRRedirectURI u = true) →
      genClientID = some cid → storeOK = false →
      RegistrationHandler s body genClientID storeOK now =
        (s, .regErr "server_error" "Internal server error")) ∧
    (∀ req cid, body = some req → req.redirectURIs ≠ [] →
      (∀ u ∈ req.redirectURIs, isValidDCRRedirectURI u = true) →
      genClientID = some cid → storeOK = true →
      (RegistrationHandler s body genClientID storeOK now).2 =
        .regOK
          { clientID := cid
            clientSecret := none
            clientSecretExpiresAt := 0
            redirectURIs := req.redirectURIs
            clientName := req.clientName
            grantTypes := ["authorization_code", "refresh_token"]
            responseTypes := ["code"]
            tokenEndpointAuthMethod := "none" } ∧
      GetClient (RegistrationHandler s body genClientID storeOK now).1 cid =
        .ok
          { clientID := cid
            redirectURIs := req.redirectURIs
            clientName := req.clientName
            grantTypes := ["authorization_code", "refresh_token"]
            responseTypes := ["code"]
            tokenEndpointAuthMethod := "none"
            createdAt := now }) := by
  refine ⟨?_, ?_, ?_, ?_, ?_, ?_⟩
  · intro hb; subst hb; rfl
  · intro req hb hemp; subst hb
    simp [RegistrationHandler, hemp]
  · intro req uri hb hfind; subst hb
    have hne : req.redirectURIs ≠ [] := by
      intro hcon
      rw [hcon] at hfind
      cases hfind
    simp [RegistrationHandler, hne, hfind]
  · intro req hb hne hvalid hgen; subst hb hgen
    have hfind : req.redirectURIs.find?
        (fun u => ! isValidDCRRedirectURI u) = none :=
      List.find?_eq_none.mpr (fun x hx => by simp [hvalid x hx])
    simp [RegistrationHandler, hne, hfind]
  · intro req cid hb hne hvalid hgen hstore; subst hb hgen hstore
    have hfind : req.redirectURIs.find?
        (fun u => ! isValidDCRRedirectURI u) = none :=
      List.find?_eq_none.mpr (fun x hx => by simp [hvalid x hx])
    simp [RegistrationHandler, hne, hfind]
  · intro req cid hb hne hvalid hgen hstore; subst hb hgen hstore
    have hfind : req.redirectURIs.find?
        (fun u => ! isValidDCRRedirectURI u) = none :=
      List.find?_eq_none.mpr (fun x hx => by simp [hvalid x hx])
    constructor
    · simp [RegistrationHandler, hne, hfind]
    · simp [RegistrationHandler, hne, hfind, GetClient, StoreClient,
        mget_mput]

def c9goodReq : ClientRegistrationRequest :=
  { redirectURIs := ["http://localhost:8080/cb", "https://claude.ai/api/mcp/auth_callback"]
    clientName := "good"
    clientURI := ""
    logoURI := ""
    grantTypes := []
    responseTypes := []
    tokenEndpointAuthMethod := "" }

/-- Witness for `c9_registration_amended`: a successful registration. -/
theorem c9_registration_amended_witness :
    (RegistrationHandler Store.empty (some c9goodReq) (some "cid-w") true 7).2 =
      .regOK
        { clientID := "cid-w"
          clientSecret := none
          clientSecretExpiresAt := 0
          redirectURIs := c9goodReq.redirectURIs
          clientName := c9goodReq.clientName
          grantTypes := ["authorization_code", "refresh_token"]
          responseTypes := ["code"]
          tokenEndpointAuthMethod := "none" } ∧
    GetClient (RegistrationHandler Store.empty (some c9goodReq)
        (some "cid-w") true 7).1 "cid-w" =
      .ok
        { clientID := "cid-w"
          redirectURIs := c9goodReq.redirectURIs
          clientName := c9goodReq.clientName
          grantTypes := ["authorization_code", "refresh_token"]
          responseTypes := ["code"]
          tokenEndpointAuthMethod := "none"
          createdAt := 7 } := by
  exact (c9_registration_amended Store.empty (some c9goodReq) (some "cid-w")
    true 7).2.2.2.2.2 c9goodReq "cid-w" rfl (by decide) (by decide) rfl rfl

end GtmMcp
